import Mathlib

/-!
Shallow embedding of the RimWorld Mod Builder XML validators
(`src/utils/xml_validator_simple.py` and `src/utils/enhanced_xml_validator.py`).

An `xml.etree.ElementTree` element is modelled as a tree of tagged nodes
carrying optional text (`elem.text` is `None` when the element has no text)
and a list of direct children.  Parsing raw text with `ET.fromstring` is
host-library behaviour, so an input string is represented by its parse
outcome: `Except String Xml`, where `.error msg` stands for an
`ET.ParseError` with message `msg` and `.ok root` stands for a successful
parse yielding tree `root`.
-/

/-- An `ElementTree` element: tag name, optional text, direct children. -/
inductive Xml where
  | elem (tag : String) (text : Option String) (children : List Xml)
deriving Repr

def Xml.tag : Xml → String
  | .elem t _ _ => t

def Xml.text : Xml → Option String
  | .elem _ tx _ => tx

def Xml.children : Xml → List Xml
  | .elem _ _ cs => cs

/-- `element.find(tag)`: first direct child whose tag matches, else `None`. -/
def findChild (t : String) (x : Xml) : Option Xml :=
  x.children.find? (fun c => c.tag == t)

/-- `element.findall(tag)`: all direct children whose tag matches. -/
def findallChildren (t : String) (x : Xml) : List Xml :=
  x.children.filter (fun c => c.tag == t)

mutual
/-- `element.iter()`: the element followed by all descendants, preorder. -/
def Xml.iter : Xml → List Xml
  | .elem t tx cs => .elem t tx cs :: iterList cs
def iterList : List Xml → List Xml
  | [] => []
  | c :: cs => c.iter ++ iterList cs
end

/-- Python truthiness of an `Optional[str]`: `None` and `""` are falsy. -/
def pyTruthy : Option String → Bool
  | none => false
  | some s => s ≠ ""

/-- Python `s.endswith(suffix)`, stated on the character lists. -/
def pyEndsWith (s suffix : String) : Bool :=
  s.data.reverse.take suffix.data.length == suffix.data.reverse

/-- Python `str.isspace()` on one character — the exact set of code points
`str.strip()` removes: ASCII whitespace, the separator controls 0x1c-0x1f,
NEL, NBSP, and the Unicode space-category characters. -/
def pyIsSpace (c : Char) : Bool :=
  [0x09, 0x0a, 0x0b, 0x0c, 0x0d, 0x1c, 0x1d, 0x1e, 0x1f, 0x20,
   0x85, 0xa0, 0x1680, 0x2000, 0x2001, 0x2002, 0x2003, 0x2004, 0x2005,
   0x2006, 0x2007, 0x2008, 0x2009, 0x200a, 0x2028, 0x2029, 0x202f,
   0x205f, 0x3000].contains c.toNat

/-- The character class `[a-zA-Z0-9_]` of the packageId regex. -/
def isWordChar (c : Char) : Bool :=
  (('a' ≤ c && c ≤ 'z') || ('A' ≤ c && c ≤ 'Z') || ('0' ≤ c && c ≤ '9') || c == '_')

/-- Longest prefix of `[a-zA-Z0-9_]` characters, and the remainder. -/
def takeWord : List Char → List Char × List Char
  | [] => ([], [])
  | c :: rest =>
    if isWordChar c then
      let p := takeWord rest
      (c :: p.1, p.2)
    else ([], c :: rest)

/-- Matching of `[a-zA-Z0-9_]+\.[a-zA-Z0-9_]+` against a whole character
list (greedy matching is unambiguous because `.` is not a word char). -/
def pkgCore (cs : List Char) : Bool :=
  let p := takeWord cs
  match p.1, p.2 with
  | [], _ => false
  | _ :: _, '.' :: r2 =>
    let q := takeWord r2
    !q.1.isEmpty && q.2.isEmpty
  | _ :: _, _ => false

/-- Python `re.match` of pattern `[a-zA-Z0-9_]+\.[a-zA-Z0-9_]+` anchored with
`$`: in Python, `$` matches at the end of the string or just before one
trailing newline, so a single final `\n` is tolerated. -/
def rePkgMatch (s : String) : Bool :=
  pkgCore s.data ||
    (match s.data.getLast? with
     | some c => c == '\n' && pkgCore s.data.dropLast
     | none => false)

namespace Simple

/-- Accumulated `self.errors` / `self.warnings` of `SimpleXMLValidator`. -/
structure VState where
  errors : List String
  warnings : List String
deriving Repr, DecidableEq

/-- `SimpleXMLValidator.load_rimworld_tags` (a Python set; order irrelevant). -/
def rimworld_tags : List String :=
  [ "ModMetaData", "Defs", "ThingDef", "RecipeDef", "ResearchProjectDef",
    "PawnKindDef", "TraitDef", "FactionDef", "BiomeDef", "JobDef", "WorkGiverDef",
    "name", "author", "packageId", "description", "supportedVersions",
    "modDependencies", "incompatibleWith", "loadAfter", "loadBefore",
    "defName", "label", "thingClass", "category", "tickerType", "altitudeLayer",
    "passability", "pathCost", "useHitPoints", "selectable", "drawGUIOverlay",
    "rotatable", "fillPercent", "statBases", "costList", "graphicData",
    "researchPrerequisites", "constructionSkillPrerequisite", "designationCategory",
    "placingDraggableDimensions", "terrainAffordanceNeeded", "constructEffect",
    "repairEffect", "filthLeaving", "leaveResourcesWhenKilled", "resourcesFractionWhenDeconstructed",
    "MaxHitPoints", "WorkToBuild", "Flammability", "Beauty", "Mass", "MarketValue",
    "DeteriorationRate", "SellPriceFactor", "Comfort", "Nutrition", "FoodPoisonChance",
    "texPath", "graphicClass", "drawSize", "color", "colorTwo", "drawRotated",
    "allowFlip", "flipExtraRotation", "shadowData", "damageData",
    "jobString", "workSpeedStat", "workSkill", "effectWorking", "soundWorking",
    "workAmount", "unfinishedThingDef", "ingredients", "products", "recipeUsers",
    "researchPrerequisite", "skillRequirements", "workSkillLearnFactor",
    "baseCost", "techLevel", "prerequisites", "researchViewX", "researchViewY",
    "requiredResearchBuilding", "requiredResearchFacilities", "tab",
    "li", "count", "filter", "thingDefs", "categories", "stuffCategories" ]

/-- Python f-string rendering of an `Optional[str]` (`None` prints "None"). -/
def showOptText : Option String → String
  | none => "None"
  | some s => s

/-- `SimpleXMLValidator.validate_package_id`. -/
def validate_package_id (package_id : Option String) : Bool :=
  if !(pyTruthy package_id) then false
  else
    match package_id with
    | none => false
    | some s => rePkgMatch s

def msgMissing (t : String) : String :=
  "Відсутній обов\x27язковий тег: <" ++ t ++ ">"

def msgBadPackageId (v : Option String) : String :=
  "Неправильний формат packageId: " ++ showOptText v

def msgNoDefName (t : String) : String :=
  "Дефініція " ++ t ++ " не має defName"

def msgEmptyDefName (t : String) : String :=
  "Порожній defName у дефініції " ++ t

def msgNoLabel (t : String) : String :=
  "Дефініція " ++ t ++ " не має label"

def required_tags : List String :=
  ["name", "author", "packageId", "supportedVersions"]

/-- `SimpleXMLValidator.validate_mod_metadata`. -/
def validate_mod_metadata (root : Xml) (st : VState) : VState :=
  let st := required_tags.foldl
    (fun s t =>
      if (findChild t root).isNone then
        { s with errors := s.errors ++ [msgMissing t] }
      else s) st
  let st :=
    match findChild "packageId" root with
    | none => st
    | some e =>
      if !(validate_package_id e.text) then
        { st with errors := st.errors ++ [msgBadPackageId e.text] }
      else st
  match findChild "supportedVersions" root with
  | none => st
  | some sv =>
    if (findallChildren "li" sv).length == 0 then
      { st with warnings := st.warnings ++ ["supportedVersions не містить жодної версії"] }
    else st

/-- `SimpleXMLValidator.validate_defs_structure`. -/
def validate_defs_structure (root : Xml) (st : VState) : VState :=
  let st := root.children.foldl
    (fun s child =>
      let s :=
        match findChild "defName" child with
        | none => { s with errors := s.errors ++ [msgNoDefName child.tag] }
        | some dn =>
          if !(pyTruthy dn.text) then
            { s with errors := s.errors ++ [msgEmptyDefName child.tag] }
          else s
      if ["ThingDef", "RecipeDef", "ResearchProjectDef"].contains child.tag then
        match findChild "label" child with
        | none => { s with warnings := s.warnings ++ [msgNoLabel child.tag] }
        | some _ => s
      else s) st
  if root.children.length == 0 then
    { st with warnings := st.warnings ++ ["Файл Defs не містить жодної дефініції"] }
  else st

mutual
/-- `SimpleXMLValidator.check_unknown_tags`. -/
def check_unknown_tags : Xml → String → VState → VState
  | .elem t tx cs, path, st =>
    let e := Xml.elem t tx cs
    let current := if path == "" then e.tag else path ++ "/" ++ e.tag
    let st :=
      if !(rimworld_tags.contains e.tag) then
        if !(["li", "count"].contains e.tag) && !(pyEndsWith e.tag "Def") then
          { st with warnings := st.warnings ++ ["Невідомий тег: " ++ current] }
        else st
      else st
    check_unknown_list cs current st
def check_unknown_list : List Xml → String → VState → VState
  | [], _, st => st
  | c :: cs, p, st => check_unknown_list cs p (check_unknown_tags c p st)
end

/-- `SimpleXMLValidator.validate_xml_syntax`: resets both accumulator lists
(previous state is discarded), then records one syntax error on parse
failure.  Returns the boolean result and the new state. -/
def validate_xml_syntax (c : Except String Xml) (_prev : VState) : Bool × VState :=
  match c with
  | .ok _ => (true, ⟨[], []⟩)
  | .error e => (false, ⟨["Синтаксична помилка XML: " ++ e], []⟩)

/-- `SimpleXMLValidator.validate_rimworld_structure`: dispatch on the root
tag, then the unknown-tag walk; on a parse error nothing is added. -/
def validate_rimworld_structure (c : Except String Xml) (st : VState) : VState :=
  match c with
  | .error _ => st
  | .ok root =>
    let st :=
      if root.tag == "ModMetaData" then validate_mod_metadata root st
      else if root.tag == "Defs" then validate_defs_structure root st
      else { st with warnings := st.warnings ++ ["Незвичний кореневий елемент: " ++ root.tag] }
    check_unknown_tags root "" st

/-- `SimpleXMLValidator.validate_content`: syntax check (which resets the
state), short-circuit on failure, otherwise structural checks; valid iff
the error list is empty.  Returns the boolean and the final state. -/
def validate_content (c : Except String Xml) (prev : VState) : Bool × VState :=
  let p := validate_xml_syntax c prev
  if !p.1 then (false, p.2)
  else
    let st := validate_rimworld_structure c p.2
    (st.errors.length == 0, st)

end Simple

namespace Enhanced

/-- The result dictionary built by `EnhancedXMLValidator.validate_xml_syntax`
and threaded through the structural checks: `valid`, `errors`, `warnings`,
`info`. -/
structure EResult where
  valid : Bool
  errors : List String
  warnings : List String
  info : List String
deriving Repr

/-- `EnhancedXMLValidator.load_rimworld_tags`: dict from tag to its expected
children. -/
def rimworld_tags : List (String × List String) :=
  [ ("Defs", ["ThingDef", "RecipeDef", "ResearchProjectDef", "JobDef", "WorkGiverDef"]),
    ("ThingDef", ["defName", "label", "description", "thingClass", "category", "statBases", "comps"]),
    ("RecipeDef", ["defName", "label", "description", "jobString", "workAmount", "ingredients", "products"]),
    ("ResearchProjectDef", ["defName", "label", "description", "baseCost", "techLevel", "prerequisites"]),
    ("statBases", ["MaxHitPoints", "Mass", "Beauty", "WorkToMake", "MarketValue"]),
    ("comps", ["CompProperties_Forbiddable", "CompProperties_Rottable", "CompProperties_Usable"]),
    ("ingredients", ["li"]),
    ("products", ["li"]),
    ("prerequisites", ["li"]) ]

/-- Dict lookup `self.rimworld_tags[def_type]` (with `in` as `isSome`). -/
def tagsLookup (t : String) : Option (List String) :=
  (rimworld_tags.find? (fun p => p.1 == t)).map Prod.snd

/-- `EnhancedXMLValidator._validate_single_def`.  The Python test
`not def_name.text or not def_name.text.strip()` holds exactly when the
text is `None`, empty, or made of `str.isspace()` characters only
(`pyIsSpace`). -/
def validate_single_def (defElem : Xml) (r : EResult) (expectedType : Option String) : EResult :=
  let defType := defElem.tag
  let r :=
    match expectedType with
    | some et =>
      if defType ≠ et then
        { r with warnings := r.warnings ++ ["Очікувався " ++ et ++ ", знайдено " ++ defType] }
      else r
    | none => r
  let r :=
    match findChild "defName" defElem with
    | none =>
      { r with errors := r.errors ++ [defType ++ " не має обов\x27язкового елемента <defName>"],
               valid := false }
    | some dn =>
      let emptyish :=
        match dn.text with
        | none => true
        | some s => s.data.all pyIsSpace
      if emptyish then
        { r with errors := r.errors ++ [defType ++ " має порожній <defName>"], valid := false }
      else r
  let r :=
    if (findChild "label" defElem).isNone then
      { r with warnings := r.warnings ++ [defType ++ " не має <label> (рекомендується)"] }
    else r
  let r :=
    if (findChild "description" defElem).isNone then
      { r with warnings := r.warnings ++ [defType ++ " не має <description> (рекомендується)"] }
    else r
  match tagsLookup defType with
  | none => r
  | some expectedChildren =>
    defElem.children.foldl
      (fun r child =>
        if !(expectedChildren.contains child.tag)
            && !(["defName", "label", "description"].contains child.tag) then
          { r with info := r.info ++ ["Незвичний елемент в " ++ defType ++ ": <" ++ child.tag ++ ">"] }
        else r) r

/-- `EnhancedXMLValidator._validate_defs_structure`. -/
def validate_defs_structure (root : Xml) (r : EResult) : EResult :=
  let p := root.children.foldl
    (fun (p : Nat × EResult) child =>
      if pyEndsWith child.tag "Def" then
        (p.1 + 1, validate_single_def child p.2 none)
      else
        (p.1, { p.2 with warnings :=
                  p.2.warnings ++ ["Незвичний елемент в Defs: <" ++ child.tag ++ ">"] }))
    (0, r)
  if p.1 == 0 then
    { p.2 with warnings := p.2.warnings ++ ["Defs не містить жодного Def елемента"] }
  else
    { p.2 with info := p.2.info ++ ["Знайдено " ++ toString p.1 ++ " Def елементів"] }

/-- `EnhancedXMLValidator._validate_patch_structure`. -/
def validate_patch_structure (root : Xml) (r : EResult) : EResult :=
  let operations := ["add", "replace", "remove", "insert", "move", "copy", "test"]
  let p := root.children.foldl
    (fun (p : Nat × EResult) child =>
      if operations.contains child.tag.toLower then
        (p.1 + 1, p.2)
      else
        (p.1, { p.2 with warnings :=
                  p.2.warnings ++ ["Незвичний елемент в Patch: <" ++ child.tag ++ ">"] }))
    (0, r)
  if p.1 == 0 then
    { p.2 with warnings := p.2.warnings ++ ["Patch не містить жодної операції"] }
  else
    { p.2 with info := p.2.info ++ ["Знайдено " ++ toString p.1 ++ " patch операцій"] }

/-- `EnhancedXMLValidator._check_common_issues`: warn on childless elements
without text (except `li`), then walk `root.iter()` collecting each
non-empty `defName` text of `*Def` elements and emit a
"Дублікат defName: <value>" error (setting `valid` to false) every time a
value repeats. -/
def check_common_issues (root : Xml) (r : EResult) : EResult :=
  let r := root.iter.foldl
    (fun r e =>
      if e.text == none && e.children.length == 0 && !(["li"].contains e.tag) then
        { r with warnings := r.warnings ++ ["Порожній елемент: <" ++ e.tag ++ ">"] }
      else r) r
  let p := root.iter.foldl
    (fun (p : List String × EResult) e =>
      if pyEndsWith e.tag "Def" then
        match findChild "defName" e with
        | some dn =>
          match dn.text with
          | some s =>
            if s ≠ "" then
              if p.1.contains s then
                (p.1, { p.2 with errors := p.2.errors ++ ["Дублікат defName: " ++ s],
                                 valid := false })
              else (p.1 ++ [s], p.2)
            else p
          | none => p
        | none => p
      else p)
    ([], r)
  p.2

/-- The body of `EnhancedXMLValidator.validate_rimworld_structure` run after
`validate_xml_syntax` succeeded: `r` is the syntax-stage result (for
well-formed content `valid = true` and `errors = []`, with whatever
warnings/info the declaration and encoding checks produced); the root-tag
check, the `Defs`/`Patch` dispatch, and the common-issue pass follow. -/
def validate_structure_of_root (root : Xml) (r : EResult) : EResult :=
  let r :=
    if !(["Defs", "GameData", "LanguageData", "Patch"].contains root.tag) then
      { r with warnings := r.warnings ++
          ["Незвичний кореневий елемент: <" ++ root.tag ++
           ">. Очікувалося: Defs, GameData, LanguageData або Patch"] }
    else r
  let r :=
    if root.tag == "Defs" then validate_defs_structure root r
    else if root.tag == "Patch" then validate_patch_structure root r
    else r
  check_common_issues root r

end Enhanced

/-! Concrete documents used to instantiate claims. -/

/-- A `ModMetaData` document with all four required children, whose
`packageId` element carries the given text. -/
def metaDocSample (pid : Option String) : Xml :=
  .elem "ModMetaData" none
    [ .elem "name" (some "Test Mod") [],
      .elem "author" (some "Tester") [],
      .elem "packageId" pid [],
      .elem "supportedVersions" none [ .elem "li" (some "1.4") [] ] ]

/-- A `ModMetaData` document missing its `name` child. -/
def metaDocNoName : Xml :=
  .elem "ModMetaData" none
    [ .elem "author" (some "Tester") [],
      .elem "packageId" (some "author.mod") [],
      .elem "supportedVersions" none [ .elem "li" (some "1.4") [] ] ]

/-- A `Defs` document with one definition whose `defName` text is
whitespace-only. -/
def wsDefsDoc : Xml :=
  .elem "Defs" none
    [ .elem "ThingDef" none
        [ .elem "defName" (some "   ") [],
          .elem "label" (some "thing") [] ] ]

/-- A `Defs` document with one definition that has no `defName` child. -/
def noDefNameDoc : Xml :=
  .elem "Defs" none
    [ .elem "ThingDef" none [ .elem "label" (some "thing") [] ] ]

/-- A `Defs` document with one definition whose `defName` element has no
text (`<defName></defName>` parses with `text = None`). -/
def emptyDefNameDoc : Xml :=
  .elem "Defs" none
    [ .elem "ThingDef" none
        [ .elem "defName" none [],
          .elem "label" (some "thing") [] ] ]

/-- A `Defs` document with two sibling definitions sharing `defName` text. -/
def dupDefsDoc (n : String) : Xml :=
  .elem "Defs" none
    [ .elem "ThingDef" none [ .elem "defName" (some n) [] ],
      .elem "RecipeDef" none [ .elem "defName" (some n) [] ] ]

/-! Correctness of the packageId pattern matcher. -/

/-- The declarative reading of `[a-zA-Z0-9_]+\.[a-zA-Z0-9_]+` as a shape of
character lists: two nonempty word-character segments joined by one dot. -/
def PkgShape (cs : List Char) : Prop :=
  ∃ a b, a ≠ [] ∧ b ≠ [] ∧ a.all isWordChar = true ∧ b.all isWordChar = true ∧
    cs = a ++ '.' :: b

theorem takeWord_eq (cs : List Char) : cs = (takeWord cs).1 ++ (takeWord cs).2 := by
  induction cs with
  | nil => rfl
  | cons c rest ih =>
    by_cases h : isWordChar c
    · simpa [takeWord, h] using ih
    · simp [takeWord, h]

theorem takeWord_all (cs : List Char) : (takeWord cs).1.all isWordChar = true := by
  induction cs with
  | nil => rfl
  | cons c rest ih =>
    by_cases h : isWordChar c
    · simp [takeWord, h, ih]
    · simp [takeWord, h]

theorem takeWord_of_all (l : List Char) (h : l.all isWordChar = true) :
    takeWord l = (l, []) := by
  induction l with
  | nil => rfl
  | cons c rest ih =>
    simp only [List.all_cons, Bool.and_eq_true] at h
    simp [takeWord, h.1, ih h.2]

theorem takeWord_append_stop (a : List Char) (c : Char) (r : List Char)
    (ha : a.all isWordChar = true) (hc : isWordChar c = false) :
    takeWord (a ++ c :: r) = (a, c :: r) := by
  induction a with
  | nil => simp [takeWord, hc]
  | cons d rest ih =>
    simp only [List.all_cons, Bool.and_eq_true] at ha
    simp [takeWord, ha.1, ih ha.2]

theorem pkgCore_iff (cs : List Char) : pkgCore cs = true ↔ PkgShape cs := by
  constructor
  · intro h
    unfold pkgCore at h
    dsimp only at h
    split at h
    · simp at h
    · rename_i x a r2 heq1 heq2
      simp only [Bool.and_eq_true, Bool.not_eq_true', List.isEmpty_iff,
        List.isEmpty_eq_false] at h
      refine ⟨x :: a, (takeWord r2).1, by simp, h.1, ?_, takeWord_all r2, ?_⟩
      · have := takeWord_all cs
        rw [heq1] at this
        exact this
      · have h1 := takeWord_eq cs
        have h2 := takeWord_eq r2
        rw [heq1, heq2] at h1
        rw [h.2] at h2
        simp only [List.append_nil] at h2
        rw [h1, ← h2]
    · simp at h
  · rintro ⟨a, b, ha0, hb0, ha, hb, rfl⟩
    obtain ⟨x, a, rfl⟩ : ∃ y l, a = y :: l := by
      cases a with
      | nil => exact absurd rfl ha0
      | cons y l => exact ⟨y, l, rfl⟩
    unfold pkgCore
    rw [takeWord_append_stop (x :: a) '.' b ha (by decide)]
    show (!(takeWord b).1.isEmpty && (takeWord b).2.isEmpty) = true
    rw [takeWord_of_all b hb]
    simp [hb0]

/-- `SimpleXMLValidator.validate_package_id` accepts exactly the strings of
shape `word+ "." word+`, optionally followed by one trailing newline (the
Python `$` anchor also matches just before a final newline). -/
theorem validate_package_id_iff (s : String) :
    Simple.validate_package_id (some s) = true ↔
      (PkgShape s.data ∨ ∃ t, s.data = t ++ ['\n'] ∧ PkgShape t) := by
  constructor
  · intro h
    unfold Simple.validate_package_id at h
    by_cases hs : s = ""
    · simp [hs, pyTruthy] at h
    · rw [if_neg (by simp [pyTruthy, hs])] at h
      unfold rePkgMatch at h
      rcases Bool.or_eq_true_iff.mp h with h1 | h2
      · exact Or.inl ((pkgCore_iff _).mp h1)
      · rcases hl : s.data.getLast? with _ | c
        · rw [hl] at h2; simp at h2
        · rw [hl] at h2
          simp only [Bool.and_eq_true, beq_iff_eq] at h2
          obtain ⟨rfl, hcore⟩ := h2
          obtain ⟨l', hl'⟩ := List.getLast?_eq_some_iff.mp hl
          refine Or.inr ⟨l', hl', ?_⟩
          have : s.data.dropLast = l' := by rw [hl']; exact List.dropLast_concat
          rw [this] at hcore
          exact (pkgCore_iff _).mp hcore
  · intro h
    have hne : s.data ≠ [] := by
      rcases h with ⟨a, b, ha0, _, _, _, hcs⟩ | ⟨t, hcs, _⟩ <;> rw [hcs] <;> simp
    have hs : s ≠ "" := by
      intro hh
      rw [hh] at hne
      exact hne rfl
    unfold Simple.validate_package_id
    rw [if_neg (by simp [pyTruthy, hs])]
    unfold rePkgMatch
    dsimp only
    rcases h with hl | ⟨t, hcs, hsh⟩
    · rw [(pkgCore_iff _).mpr hl]
      rfl
    · rw [hcs]
      rw [List.getLast?_concat, List.dropLast_concat]
      rw [(pkgCore_iff _).mpr hsh]
      simp

/-! Claim theorems. -/

/-- C3 counterexample: "Author.Mod" has an uppercase letter in each segment
yet passes the format check, and a metadata document carrying it validates
with no error — the claim that uppercase letters are rejected is false. -/
theorem C3_counterexample :
    Simple.validate_package_id (some "Author.Mod") = true ∧
    Simple.validate_content (.ok (metaDocSample (some "Author.Mod"))) ⟨[], []⟩
      = (true, ⟨[], []⟩) := by
  decide

/-- C3 amended: a packageId is accepted exactly when it consists of two
nonempty segments over `[a-zA-Z0-9_]` — upper case allowed — joined by one
dot, optionally followed by a single trailing newline; in particular the
uppercase "Author.Mod" is accepted. -/
theorem C3_pkg_charclass :
    (∀ s : String, Simple.validate_package_id (some s) = true ↔
      (PkgShape s.data ∨ ∃ t, s.data = t ++ ['\n'] ∧ PkgShape t)) ∧
    isWordChar 'A' = true ∧
    Simple.validate_package_id (some "Author.Mod") = true :=
  ⟨validate_package_id_iff, by decide, by decide⟩

/-- C10: appending one newline to a string matched by the core packageId
pattern still passes `validate_package_id` (Python `$` matches before a
final newline), and a metadata document whose packageId text is
"author.mod\n" validates with no error. -/
theorem C10_trailing_newline :
    (∀ s : String, pkgCore s.data = true →
        Simple.validate_package_id (some (s ++ "\n")) = true) ∧
    Simple.validate_content (.ok (metaDocSample (some "author.mod\n"))) ⟨[], []⟩
      = (true, ⟨[], []⟩) := by
  constructor
  · intro s h
    apply (validate_package_id_iff _).mpr
    exact Or.inr ⟨s.data, String.data_append s "\n", (pkgCore_iff _).mp h⟩
  · decide

/-- C10 witness: the general statement applied at "author.mod". -/
theorem C10_witness :
    Simple.validate_package_id (some ("author.mod" ++ "\n")) = true :=
  C10_trailing_newline.1 "author.mod" (by decide)

/-- C4: the packageId format check accepts "author.mod" and
"john_doe.my_mod" and rejects "justauthor", "Author.Mod Name", ".mod" and
"author.", each rejection yielding a packageId-format error in the
validation of a well-formed metadata document. -/
theorem C4_packageid_examples :
    Simple.validate_package_id (some "author.mod") = true ∧
    Simple.validate_package_id (some "john_doe.my_mod") = true ∧
    Simple.validate_package_id (some "justauthor") = false ∧
    Simple.validate_package_id (some "Author.Mod Name") = false ∧
    Simple.validate_package_id (some ".mod") = false ∧
    Simple.validate_package_id (some "author.") = false ∧
    (Simple.validate_content (.ok (metaDocSample (some "justauthor"))) ⟨[], []⟩).2.errors
      = [Simple.msgBadPackageId (some "justauthor")] ∧
    (Simple.validate_content (.ok (metaDocSample (some "Author.Mod Name"))) ⟨[], []⟩).2.errors
      = [Simple.msgBadPackageId (some "Author.Mod Name")] ∧
    (Simple.validate_content (.ok (metaDocSample (some ".mod"))) ⟨[], []⟩).2.errors
      = [Simple.msgBadPackageId (some ".mod")] ∧
    (Simple.validate_content (.ok (metaDocSample (some "author."))) ⟨[], []⟩).2.errors
      = [Simple.msgBadPackageId (some "author.")] := by
  decide

/-- C5: on any parse failure (the empty string included), `validate_content`
returns false, the structural checks are skipped, the error list holds
exactly the one syntax error, and the warning list is empty. -/
theorem C5_syntax_short_circuit (e : String) (st : Simple.VState) :
    Simple.validate_content (.error e) st
      = (false, ⟨["Синтаксична помилка XML: " ++ e], []⟩) := rfl

/-- C8: a second `validate_content` call on the same input, starting from
the state the first call left behind, returns exactly the first call's
result: the accumulators are reset at the start of every call. -/
theorem C8_idempotent (c : Except String Xml) (st : Simple.VState) :
    Simple.validate_content c ((Simple.validate_content c st).2)
      = Simple.validate_content c st := by
  cases c <;> rfl

mutual
/-- The unknown-tag walk touches only the warning list. -/
theorem check_unknown_tags_errors : ∀ (e : Xml) (p : String) (st : Simple.VState),
    (Simple.check_unknown_tags e p st).errors = st.errors
  | .elem t tx cs, p, st => by
    rw [Simple.check_unknown_tags]
    rw [check_unknown_list_errors cs]
    split
    · split
      · rfl
      · rfl
    · rfl
theorem check_unknown_list_errors : ∀ (l : List Xml) (p : String) (st : Simple.VState),
    (Simple.check_unknown_list l p st).errors = st.errors
  | [], _, _ => rfl
  | c :: cs, p, st => by
    rw [Simple.check_unknown_list]
    rw [check_unknown_list_errors cs, check_unknown_tags_errors c]
end

/-- C6: for well-formed input the result is valid exactly when the error
list is empty; the unknown-tag walk never touches the error list; an
unrecognized root element leaves the document valid; and a structurally
valid `Defs` document with one unknown nested tag stays valid, gaining
only the unknown-tag warning. -/
theorem C6_valid_iff_no_errors :
    (∀ (root : Xml) (st : Simple.VState),
        (Simple.validate_content (.ok root) st).1 = true ↔
          (Simple.validate_content (.ok root) st).2.errors = []) ∧
    (∀ (e : Xml) (p : String) (st : Simple.VState),
        (Simple.check_unknown_tags e p st).errors = st.errors) ∧
    (∀ (root : Xml) (st : Simple.VState),
        root.tag ≠ "ModMetaData" → root.tag ≠ "Defs" →
          (Simple.validate_content (.ok root) st).1 = true) ∧
    Simple.validate_content
        (.ok (.elem "Defs" none
          [ .elem "ThingDef" none
              [ .elem "defName" (some "X") [],
                .elem "label" (some "x") [],
                .elem "myCustomTag" (some "1") [] ] ])) ⟨[], []⟩
      = (true, ⟨[], ["Невідомий тег: Defs/ThingDef/myCustomTag"]⟩) := by
  refine ⟨?_, check_unknown_tags_errors, ?_, by decide⟩
  · intro root st
    show ((Simple.validate_rimworld_structure (.ok root) ⟨[], []⟩).errors.length == 0) = true ↔ _
    simp only [beq_iff_eq, List.length_eq_zero]
    exact Iff.rfl
  · intro root st h1 h2
    show ((Simple.validate_rimworld_structure (.ok root) ⟨[], []⟩).errors.length == 0) = true
    unfold Simple.validate_rimworld_structure
    dsimp only
    rw [if_neg (by simp [h1]), if_neg (by simp [h2])]
    rw [check_unknown_tags_errors]
    rfl

/-- C6 witness: the unusual-root conjunct at a concrete `LanguageData`
document. -/
theorem C6_witness :
    (Simple.validate_content (.ok (.elem "LanguageData" none [])) ⟨[], []⟩).1 = true :=
  C6_valid_iff_no_errors.2.2.1 (.elem "LanguageData" none []) ⟨[], []⟩
    (by decide) (by decide)

/-- The errors contributed by the required-tags pass of
`validate_mod_metadata`: one "Відсутній обовʼязковий тег" message per
absent required child. -/
def missingMsgs (root : Xml) : List String :=
  (Simple.required_tags.filter (fun t => (findChild t root).isNone)).map Simple.msgMissing

/-- The errors contributed by the packageId pass of
`validate_mod_metadata`. -/
def pkgMsgs (root : Xml) : List String :=
  match findChild "packageId" root with
  | none => []
  | some e =>
    if !(Simple.validate_package_id e.text) then [Simple.msgBadPackageId e.text] else []

theorem foldl_missing_errors (root : Xml) (ts : List String) (st : Simple.VState) :
    (ts.foldl
      (fun s t =>
        if (findChild t root).isNone then
          { s with errors := s.errors ++ [Simple.msgMissing t] }
        else s) st).errors
      = st.errors ++ (ts.filter (fun t => (findChild t root).isNone)).map Simple.msgMissing := by
  induction ts generalizing st with
  | nil => simp
  | cons t ts ih =>
    rw [List.foldl_cons, List.filter_cons]
    by_cases h : (findChild t root).isNone
    · rw [if_pos h, if_pos h, ih]
      simp
    · rw [if_neg h, if_neg h, ih]

/-- The error list produced by `validate_mod_metadata`: the incoming errors
followed by the missing-tag messages, then the packageId-format message if
any; the `supportedVersions` pass touches only warnings. -/
theorem validate_mod_metadata_errors (root : Xml) (st : Simple.VState) :
    (Simple.validate_mod_metadata root st).errors
      = st.errors ++ missingMsgs root ++ pkgMsgs root := by
  unfold Simple.validate_mod_metadata missingMsgs pkgMsgs
  rw [← foldl_missing_errors root Simple.required_tags st]
  repeat' split
  all_goals simp

/-- C7: a well-formed metadata document with all four required children and
a well-formatted packageId validates as true with no errors; a metadata
document missing any required child carries the corresponding missing-tag
error and validates as false. -/
theorem C7_metadata_validation :
    (∀ (root : Xml) (st : Simple.VState),
        root.tag = "ModMetaData" →
        (∀ t ∈ Simple.required_tags, (findChild t root).isSome) →
        Simple.validate_package_id ((findChild "packageId" root).bind Xml.text) = true →
        Simple.validate_content (.ok root) st
          = (true, (Simple.validate_content (.ok root) st).2) ∧
        (Simple.validate_content (.ok root) st).2.errors = []) ∧
    (∀ (root : Xml) (st : Simple.VState) (t : String),
        root.tag = "ModMetaData" → t ∈ Simple.required_tags →
        findChild t root = none →
        Simple.msgMissing t ∈ (Simple.validate_content (.ok root) st).2.errors ∧
        (Simple.validate_content (.ok root) st).1 = false) := by
  have hred : ∀ (root : Xml) (st : Simple.VState), root.tag = "ModMetaData" →
      (Simple.validate_content (.ok root) st).2.errors
        = missingMsgs root ++ pkgMsgs root := by
    intro root st h1
    show (Simple.validate_rimworld_structure (.ok root) ⟨[], []⟩).errors = _
    unfold Simple.validate_rimworld_structure
    dsimp only
    rw [if_pos (by simp [h1]), check_unknown_tags_errors,
      validate_mod_metadata_errors]
    rfl
  have hvalid : ∀ (root : Xml) (st : Simple.VState),
      (Simple.validate_content (.ok root) st).1
        = ((Simple.validate_content (.ok root) st).2.errors.length == 0) := by
    intro root st
    rfl
  constructor
  · intro root st h1 h2 h3
    have hm : missingMsgs root = [] := by
      have hn1 : (findChild "name" root).isNone = false :=
        (Option.isNone_eq_false_iff _).mpr (h2 "name" (by simp [Simple.required_tags]))
      have hn2 : (findChild "author" root).isNone = false :=
        (Option.isNone_eq_false_iff _).mpr (h2 "author" (by simp [Simple.required_tags]))
      have hn3 : (findChild "packageId" root).isNone = false :=
        (Option.isNone_eq_false_iff _).mpr (h2 "packageId" (by simp [Simple.required_tags]))
      have hn4 : (findChild "supportedVersions" root).isNone = false :=
        (Option.isNone_eq_false_iff _).mpr
          (h2 "supportedVersions" (by simp [Simple.required_tags]))
      simp [missingMsgs, Simple.required_tags, hn1, hn2, hn3, hn4]
    have hp : pkgMsgs root = [] := by
      unfold pkgMsgs
      rcases hfp : findChild "packageId" root with _ | e
      · rfl
      · rw [hfp] at h3
        dsimp only [Option.bind] at h3
        dsimp only
        rw [h3]
        rfl
    have herr : (Simple.validate_content (.ok root) st).2.errors = [] := by
      rw [hred root st h1, hm, hp]
      rfl
    refine ⟨?_, herr⟩
    have h1' := hvalid root st
    rw [herr] at h1'
    exact Prod.ext h1' rfl
  · intro root st t h1 ht hnone
    have hmem : Simple.msgMissing t ∈ (Simple.validate_content (.ok root) st).2.errors := by
      rw [hred root st h1]
      refine List.mem_append.mpr (Or.inl ?_)
      unfold missingMsgs
      exact List.mem_map_of_mem _ (List.mem_filter.mpr ⟨ht, by simp [hnone]⟩)
    refine ⟨hmem, ?_⟩
    rw [hvalid root st]
    have : (Simple.validate_content (.ok root) st).2.errors ≠ [] :=
      List.ne_nil_of_mem hmem
    simpa [List.length_eq_zero] using this

/-- C7 witness: the two conjuncts at concrete metadata documents. -/
theorem C7_witness :
    (Simple.validate_content (.ok (metaDocSample (some "author.mod"))) ⟨[], []⟩).2.errors
        = [] ∧
    Simple.msgMissing "name"
        ∈ (Simple.validate_content (.ok metaDocNoName) ⟨[], []⟩).2.errors :=
  ⟨(C7_metadata_validation.1 (metaDocSample (some "author.mod")) ⟨[], []⟩ rfl
      (by decide) (by decide)).2,
   (C7_metadata_validation.2 metaDocNoName ⟨[], []⟩ "name" rfl
      (by decide) rfl).1⟩

/-- C1: a `Defs` document whose two sibling definitions share one non-blank
`defName` text produces exactly one "Дублікат defName: <value>" error —
the value tracking is per document tree — and `valid` ends up false. -/
theorem C1_duplicate_defname (n : String) (ws info : List String)
    (hn : n.data.all pyIsSpace = false) :
    (Enhanced.validate_structure_of_root (dupDefsDoc n) ⟨true, [], ws, info⟩).errors
        = ["Дублікат defName: " ++ n] ∧
    (Enhanced.validate_structure_of_root (dupDefsDoc n) ⟨true, [], ws, info⟩).valid
        = false := by
  have hne : n ≠ "" := by
    intro h
    rw [h] at hn
    exact absurd hn (by decide)
  constructor <;>
    simp +decide [Enhanced.validate_structure_of_root, Enhanced.validate_defs_structure,
      Enhanced.validate_single_def, Enhanced.check_common_issues, Enhanced.tagsLookup,
      Enhanced.rimworld_tags, dupDefsDoc, findChild, Xml.iter, iterList, Xml.children,
      Xml.tag, Xml.text, pyEndsWith, hn, hne]

/-- C1 witness: the duplicate error at the concrete name "DupItem". -/
theorem C1_witness :
    (Enhanced.validate_structure_of_root (dupDefsDoc "DupItem") ⟨true, [], [], []⟩).errors
      = ["Дублікат defName: " ++ "DupItem"] :=
  (C1_duplicate_defname "DupItem" [] [] (by decide)).1

/-- C2 counterexample: in `SimpleXMLValidator` a definition whose `defName`
text is whitespace-only (truthy in Python) raises no error at all: the
document validates as true with empty error and warning lists, against the
claim's "Empty defName" error and invalid outcome. -/
theorem C2_counterexample :
    Simple.validate_content (.ok wsDefsDoc) ⟨[], []⟩ = (true, ⟨[], []⟩) := by
  decide

/-- C2 amended: in the simple validator an absent `defName` child yields the
"не має defName" error and a `defName` whose text is absent/empty yields
the distinct "Порожній defName" error, each making the document invalid;
whitespace-only text is flagged (as "має порожній <defName>") only by the
enhanced validator. -/
theorem C2_defname_errors :
    Simple.validate_content (.ok noDefNameDoc) ⟨[], []⟩
      = (false, ⟨[Simple.msgNoDefName "ThingDef"], []⟩) ∧
    Simple.validate_content (.ok emptyDefNameDoc) ⟨[], []⟩
      = (false, ⟨[Simple.msgEmptyDefName "ThingDef"], []⟩) ∧
    Simple.msgNoDefName "ThingDef" ≠ Simple.msgEmptyDefName "ThingDef" ∧
    (Enhanced.validate_single_def
        (.elem "ThingDef" none [ .elem "defName" (some "   ") [] ])
        ⟨true, [], [], []⟩ none).errors
      = ["ThingDef має порожній <defName>"] ∧
    (Enhanced.validate_single_def
        (.elem "ThingDef" none [ .elem "defName" (some "   ") [] ])
        ⟨true, [], [], []⟩ none).valid = false := by
  refine ⟨by decide, by decide, by decide, ?_, ?_⟩ <;> rfl

/-- C9: a `Defs` document with zero child elements validates as true with
no errors and exactly one warning saying the file holds no definitions. -/
theorem C9_empty_defs_warning :
    Simple.validate_content (.ok (.elem "Defs" none [])) ⟨[], []⟩
      = (true, ⟨[], ["Файл Defs не містить жодної дефініції"]⟩) := by
  decide
